import Mathlib

/-!
# Shallow embedding of `node-jkutils`

This file embeds the data model and operations of the `node-jkutils`
repository — a client for the Quake3-style game-server discovery protocol —
and proves/refutes a list of specification claims about it.

Buffers are modelled as `List Nat` (one entry per byte).  Node's `'ascii'`
decoding masks every byte with `0x7F` before mapping it to a character, and
that masking is reproduced here.  JavaScript bitwise operators work on
32-bit two's-complement integers; they are modelled on `Int` with explicit
conversion through the unsigned 32-bit range.  Fallible Node buffer
primitives (`readUInt32LE`, `readUInt16BE`, `writeUInt32BE`, ...), which
throw `RangeError` on out-of-range access, are modelled with `Except`.
-/

set_option maxRecDepth 2048

instance {ε α : Type} [DecidableEq ε] [DecidableEq α] :
    DecidableEq (Except ε α) := fun a b =>
  match a, b with
  | .ok x, .ok y =>
    if h : x = y then .isTrue (by rw [h]) else .isFalse (by simp [h])
  | .error e, .error f =>
    if h : e = f then .isTrue (by rw [h]) else .isFalse (by simp [h])
  | .ok _, .error _ => .isFalse (by simp)
  | .error _, .ok _ => .isFalse (by simp)

/-- JavaScript `String.prototype.split` with a one-character separator, on
character lists (structurally recursive so the kernel can evaluate it):
an empty input yields `[""]`, a separator at either end yields an empty
field there. -/
def splitOnChar (sep : Char) : List Char → List (List Char)
  | [] => [[]]
  | c :: rest =>
    if c = sep then [] :: splitOnChar sep rest
    else
      match splitOnChar sep rest with
      | hd :: tl => (c :: hd) :: tl
      | [] => [[c]]

/-- `String.prototype.split` with a one-character separator. -/
def jsSplitChar (s : String) (sep : Char) : List String :=
  (splitOnChar sep s.data).map (fun cs => (⟨cs⟩ : String))

/-- `Array.prototype.join(sep)` for string elements. -/
def jsJoin (sep : String) : List String → String
  | [] => ""
  | [s] => s
  | s :: rest => s ++ sep ++ jsJoin sep rest

/-- JavaScript `String(n)` for a non-negative number: decimal digits.
Fuelled on the number itself so it stays structurally recursive. -/
def natToDecimalAux : Nat → Nat → List Char
  | 0, _ => []
  | fuel + 1, n =>
    if n < 10 then [Char.ofNat (48 + n)]
    else natToDecimalAux fuel (n / 10) ++ [Char.ofNat (48 + n % 10)]

/-- JavaScript `String(n)` for a non-negative number. -/
def natToDecimal (n : Nat) : String :=
  ⟨natToDecimalAux (n + 1) n⟩

/-- Node `buffer.toString('ascii', ...)`: each byte is masked with `0x7F`
and mapped to the corresponding character. -/
def asciiDecode (bs : List Nat) : String :=
  ⟨bs.map (fun b => Char.ofNat (b % 128))⟩

/-- Helper for building concrete test payloads: the byte sequence of an
ASCII string. -/
def asciiBytes (s : String) : List Nat :=
  s.data.map Char.toNat

/-- Node `buffer.readUInt32LE(offset)`: little-endian 32-bit read; throws a
`RangeError` when fewer than 4 bytes are available at `offset`. -/
def readUInt32LE (buf : List Nat) (off : Nat) : Except String Nat :=
  if off + 4 ≤ buf.length then
    .ok (buf.getD off 0 + 256 * buf.getD (off + 1) 0 +
      65536 * buf.getD (off + 2) 0 + 16777216 * buf.getD (off + 3) 0)
  else
    .error "RangeError: readUInt32LE out of range"

/-- Node `buffer.readUInt16BE(offset)`: big-endian 16-bit read; throws a
`RangeError` when fewer than 2 bytes are available at `offset`. -/
def readUInt16BE (buf : List Nat) (off : Nat) : Except String Nat :=
  if off + 2 ≤ buf.length then
    .ok (buf.getD off 0 * 256 + buf.getD (off + 1) 0)
  else
    .error "RangeError: readUInt16BE out of range"

/-- Node `buffer.readUInt8(offset)`: throws a `RangeError` past the end. -/
def readUInt8 (buf : List Nat) (off : Nat) : Except String Nat :=
  if off < buf.length then .ok (buf.getD off 0)
  else .error "RangeError: readUInt8 out of range"

/-!
## `lib/message-parser.js` — `Q3MessageParser`

One immutable payload (`msg`) plus a read cursor (`offset`); each method is
embedded as a function from the parser state to (result, new state).
-/

structure Q3MessageParser where
  msg : List Nat
  offset : Nat
deriving DecidableEq, Repr

namespace Q3MessageParser

/-- The constructor: with `validateHeader` it reads a 32-bit little-endian
marker at offset 0, advances past it and throws unless the marker is
`0xFFFFFFFF`; construction failure is modelled as `Except.error`. -/
def mkParser (msg : List Nat) (validateHeader : Bool := true) :
    Except String Q3MessageParser :=
  if validateHeader then do
    let marker ← readUInt32LE msg 0
    if marker ≠ 4294967295 then
      .error ("Q3MessageParser: missing start marker, received " ++ natToDecimal marker)
    else
      .ok ⟨msg, 4⟩
  else
    .ok ⟨msg, 0⟩

/-- `readLine()`: decodes the remainder of the message as ASCII, returns the
text before the next linefeed and advances past the linefeed; with no
linefeed left it returns the whole remainder and moves to end-of-buffer. -/
def readLine (p : Q3MessageParser) : String × Q3MessageParser :=
  let str := asciiDecode (p.msg.drop p.offset)
  match str.data.findIdx? (· == '\n') with
  | some i => (⟨str.data.take i⟩, ⟨p.msg, p.offset + i + 1⟩)
  | none => (str, ⟨p.msg, p.offset + str.data.length⟩)

/-- `readChars(numBytes)`: `msg.slice(offset, offset + numBytes)` decoded as
ASCII — `Buffer.slice` clamps to the buffer, so the result may be shorter
than requested — and the offset advances by `numBytes` unconditionally. -/
def readChars (p : Q3MessageParser) (numBytes : Nat) :
    String × Q3MessageParser :=
  (asciiDecode ((p.msg.drop p.offset).take numBytes),
    ⟨p.msg, p.offset + numBytes⟩)

/-- `skip(numBytes)`: when `offset + numBytes >= msg.length` it clamps the
offset to the end and returns `false`; otherwise it advances and returns
`true`. -/
def skip (p : Q3MessageParser) (numBytes : Nat := 1) :
    Bool × Q3MessageParser :=
  if p.offset + numBytes ≥ p.msg.length then
    (false, ⟨p.msg, p.msg.length⟩)
  else
    (true, ⟨p.msg, p.offset + numBytes⟩)

/-- The loop body and guard of `splitWithStride`, fuelled: while
`offset + chunkSize < msg.length` and the chunk bound (0 = unlimited) is
not reached, push `msg.slice(offset, offset + chunkSize)` and advance by
`chunkSize + stride`.  The fuel only bounds the iteration count; the entry
point passes enough fuel for every terminating execution. -/
def splitWithStrideAux :
    Nat → Q3MessageParser → Nat → Nat → Nat → List (List Nat) →
    List (List Nat) × Q3MessageParser
  | 0, p, _, _, _, acc => (acc, p)
  | fuel + 1, p, chunkSize, stride, numChunks, acc =>
    if p.offset + chunkSize < p.msg.length ∧
        (numChunks = 0 ∨ acc.length < numChunks) then
      splitWithStrideAux fuel ⟨p.msg, p.offset + chunkSize + stride⟩
        chunkSize stride numChunks (acc ++ [(p.msg.drop p.offset).take chunkSize])
    else
      (acc, p)

/-- `splitWithStride(chunkSize, stride, numChunks)`. -/
def splitWithStride (p : Q3MessageParser)
    (chunkSize : Nat := 1) (stride : Nat := 1) (numChunks : Nat := 0) :
    List (List Nat) × Q3MessageParser :=
  splitWithStrideAux (p.msg.length + 1) p chunkSize stride numChunks []

/-- `remainingBytes()`: `msg.length - offset` as a JavaScript number (it can
go negative after an over-running `readChars`). -/
def remainingBytes (p : Q3MessageParser) : Int :=
  (p.msg.length : Int) - (p.offset : Int)

end Q3MessageParser

/-!
## JavaScript value semantics used by the source

`ctm_getservers` compares the result of `readUInt8` (a Number) against the
one-character strings `'\0'` and `'\n'` with `Array.prototype.indexOf`,
which uses strict equality.  Strict equality between values of different
types is `false`, so the comparison is embedded through a sum type of
JavaScript numbers and strings.
-/

inductive JSVal where
  | num : Int → JSVal
  | str : String → JSVal
deriving DecidableEq, Repr

/-- JavaScript strict equality (`===`) restricted to numbers and strings:
equal types compare by value, different types are never equal. -/
def jsStrictEq : JSVal → JSVal → Bool
  | .num a, .num b => a == b
  | .str a, .str b => a == b
  | _, _ => false

/-- `Array.prototype.indexOf`, which tests elements with strict equality
and returns `-1` when nothing matches. -/
def jsIndexOf (l : List JSVal) (v : JSVal) : Int :=
  match l.findIdx? (fun w => jsStrictEq w v) with
  | some i => (i : Int)
  | none => -1

/-- Interpret an `Int` as a JavaScript unsigned 32-bit bit pattern. -/
def toUInt32bits (x : Int) : Nat :=
  (x % (4294967296 : Int)).toNat

/-- Interpret an unsigned 32-bit bit pattern as a signed JavaScript 32-bit
integer (two's complement). -/
def ofUInt32bits (u : Nat) : Int :=
  if u < 2147483648 then (u : Int) else (u : Int) - 4294967296

/-- JavaScript `<<`: both sides through ToInt32, shift count mod 32, result
truncated to a signed 32-bit integer. -/
def jsShl (x : Int) (k : Nat) : Int :=
  ofUInt32bits (toUInt32bits x * 2 ^ (k % 32) % 4294967296)

/-- JavaScript `>>` (sign-propagating right shift): floor division of the
signed 32-bit value by a power of two. -/
def jsShr (x : Int) (k : Nat) : Int :=
  Int.fdiv (ofUInt32bits (toUInt32bits x)) (2 ^ (k % 32))

/-- JavaScript `|` on signed 32-bit integers. -/
def jsOr (x y : Int) : Int :=
  ofUInt32bits (Nat.lor (toUInt32bits x) (toUInt32bits y))

/-- JavaScript `&` on signed 32-bit integers. -/
def jsAnd (x y : Int) : Int :=
  ofUInt32bits (Nat.land (toUInt32bits x) (toUInt32bits y))

/-!
## `lib/jkutils.js` — infostring and server-address codec

JavaScript plain objects with string keys are modelled as insertion-ordered
association lists: assigning to an existing key updates it in place,
assigning a fresh key appends it.
-/

/-- JavaScript property assignment `obj[k] = v` on a plain object modelled
as an insertion-ordered association list. -/
def objSet : List (String × String) → String → String → List (String × String)
  | [], k, v => [(k, v)]
  | (k0, v0) :: rest, k, v =>
    if k0 = k then (k0, v) :: rest else (k0, v0) :: objSet rest k v

/-- JavaScript property read `obj[k]` (`none` models `undefined`). -/
def objGet (o : List (String × String)) (k : String) : Option String :=
  (o.find? (fun pr => pr.1 == k)).map (fun pr => pr.2)

/-- ASCII lower-casing; JavaScript `toLowerCase` restricted to the ASCII
keys the protocol uses. -/
def jsToLower (s : String) : String :=
  ⟨s.data.map Char.toLower⟩

/-- The indexed loop of `parseInfostring`:
`for (let i = 0; i < toks.length - 1; i += 2) pairs[toks[i].toLowerCase()] = toks[i+1]`.
The loop is fuelled so that it stays kernel-reducible; the index advances
by 2 per iteration, so `toks.length` units of fuel cover every run. -/
def pairsLoop : Nat → List String → Nat → List (String × String) →
    List (String × String)
  | 0, _, _, pairs => pairs
  | fuel + 1, toks, i, pairs =>
    if h : i + 1 < toks.length then
      pairsLoop fuel toks (i + 2)
        (objSet pairs (jsToLower (toks.get ⟨i, by omega⟩)) (toks.get ⟨i + 1, h⟩))
    else
      pairs

/-- `parseInfostring(info)`: strips one optional leading backslash, splits
on backslash, and pairs consecutive tokens with lower-cased keys via the
indexed loop (an odd trailing token never enters the loop). -/
def parseInfostring (info : String) : List (String × String) :=
  let body : List Char :=
    match info.data with
    | '\x5c' :: rest => rest
    | cs => cs
  let toks := (splitOnChar '\x5c' body).map (fun cs => (⟨cs⟩ : String))
  pairsLoop toks.length toks 0 []

/-- A decoded server address: dotted-quad text plus port number. -/
structure Address where
  ip : String
  port : Nat
deriving DecidableEq, Repr

/-- JavaScript unary plus restricted to the token shapes that occur in
dotted-quad octets: a nonempty decimal digit string parses to its value,
anything else is NaN (`none`). -/
def jsToNumber (s : String) : Option Nat :=
  if s.data ≠ [] ∧ s.data.all Char.isDigit then
    some (s.data.foldl (fun a c => a * 10 + (c.toNat - 48)) 0)
  else none

/-- Fetch octet `i` of the split dotted quad as a ToInt32 operand: a parsed
number is itself; a missing element (`undefined`) or an unparseable token
(NaN) converts to 0 under ToInt32. -/
def octetInt32 (octets : List (Option Nat)) (i : Nat) : Int :=
  match octets.getD i none with
  | some n => (n : Int)
  | none => 0

/-- `encodeServer(ip, port)` from `lib/jkutils.js`:
allocates 6 bytes, writes `(o0<<24)|(o1<<16)|(o2<<8)|o3` with
`writeUInt32BE` (which throws a `RangeError` for values outside
`[0, 0xFFFFFFFF]`, e.g. when the leading octet is ≥ 128 and the OR is
negative), then writes `(port >> 8) | (port & 0xFF)` with
`writeUInt16BE`. -/
def encodeServer (ip : String) (port : Nat) : Except String (List Nat) :=
  let octets := (jsSplitChar ip '.').map jsToNumber
  let v := jsOr (jsOr (jsOr (jsShl (octetInt32 octets 0) 24)
    (jsShl (octetInt32 octets 1) 16)) (jsShl (octetInt32 octets 2) 8))
    (octetInt32 octets 3)
  if v < 0 ∨ (4294967295 : Int) < v then
    .error "RangeError: writeUInt32BE value out of range"
  else
    let pv := jsOr (jsShr (port : Int) 8) (jsAnd (port : Int) 255)
    if pv < 0 ∨ (65535 : Int) < pv then
      .error "RangeError: writeUInt16BE value out of range"
    else
      .ok [v.toNat / 16777216 % 256, v.toNat / 65536 % 256,
        v.toNat / 256 % 256, v.toNat % 256,
        pv.toNat / 256 % 256, pv.toNat % 256]

/-- `decodeServer(buffer)` from `lib/jkutils.js`: dotted-quad text from the
first four bytes (`buffer.slice(0,4).join('.')`) and the port from
`buffer.readUInt16BE(4)`. -/
def decodeServer (buffer : List Nat) : Except String Address := do
  let port ← readUInt16BE buffer 4
  pure ⟨jsJoin "." ((buffer.take 4).map natToDecimal), port⟩

/-!
## `lib/jkcomms.js` — `JKComms`

Each operation sends a request and processes one reply datagram inside a
callback.  The reply-processing bodies are embedded as pure functions of
the strict-mode flag, the request parameters, the reply's source address
and the reply payload; `callback(err)` becomes `Except.error` and
`callback(null, result)` becomes `Except.ok`.  An exception escaping the
callback (e.g. from the parser constructor or an out-of-range buffer read)
is likewise modelled as `Except.error`.
-/

open Q3MessageParser

/-- The head-padding loop of `ctm_getservers`:
`do { parser.skip(); } while (['\0','\n'].indexOf(parser.msg.readUInt8(parser.offset)) !== -1)`.
`readUInt8` produces a Number while the array holds one-character strings,
so the strict-equality comparison is across types.  Fuelled; the entry
point passes `msg.length + 1`, enough for every terminating execution. -/
def skipPadLoop : Nat → Q3MessageParser → Except String Q3MessageParser
  | 0, _ => .error "loop fuel exhausted"
  | fuel + 1, p => do
    let p1 := (skip p 1).2
    let b ← readUInt8 p1.msg p1.offset
    if jsIndexOf [.str "\x00", .str "\n"] (.num (b : Int)) ≠ -1 then
      skipPadLoop fuel p1
    else
      pure p1

/-- Entry point of the head-padding loop. -/
def skipPadding (p : Q3MessageParser) : Except String Q3MessageParser :=
  skipPadLoop (p.msg.length + 1) p

/-- The reply-processing body of `ctm_getservers` (from
`new Q3MessageParser(res.response)` to `callback(null, servers)`):
verify the source address (strict/lenient), read the 18-character command,
compare it with `getserversResponse` (strict/lenient), run the
head-padding loop, split the remainder with `splitWithStride(6, 1)`,
decode each chunk with `decodeServer`, and read the sentinel line. -/
def ctm_getservers_process (strict : Bool) (destIp : String)
    (destPort : Nat) (source : Address) (response : List Nat) :
    Except String (List Address) :=
  if (source.ip ≠ destIp ∨ source.port ≠ destPort) ∧ strict = true then
    .error "JKComms: response came from unexpected source address"
  else do
    let p0 ← mkParser response true
    let (command, p1) := readChars p0 18
    if command ≠ "getserversResponse" ∧ strict = true then
      .error "JKComms: expected getserversResponse"
    else do
      let p2 ← skipPadding p1
      let (chunks, p3) := splitWithStride p2 6 1 0
      let servers ← chunks.mapM decodeServer
      let (_sentinel, _p4) := readLine p3
      pure servers

/-- The reply-processing body of `cts_getinfo`: verify the source address
(strict/lenient), read the command line and compare with `infoResponse`
(strict/lenient), decode the next line as an infostring, compare its
`challenge` field with the request's challenge (strict/lenient), and
resolve with the source address and the decoded infostring. -/
def cts_getinfo_process (strict : Bool) (challenge : String)
    (destIp : String) (destPort : Nat) (source : Address)
    (response : List Nat) :
    Except String (Address × List (String × String)) :=
  if (source.ip ≠ destIp ∨ source.port ≠ destPort) ∧ strict = true then
    .error "JKComms: response came from unexpected source address"
  else do
    let p0 ← mkParser response true
    let (command, p1) := readLine p0
    if command ≠ "infoResponse" ∧ strict = true then
      .error "JKComms: expected infoResponse"
    else
      let (infoString, _p2) := readLine p1
      if objGet (parseInfostring infoString) "challenge" ≠ some challenge ∧
          strict = true then
        .error "JKComms: challenge mismatch"
      else
        pure (source, parseInfostring infoString)

/-- One client-score record of a `statusResponse`
(`matches.groups` of `/^(?<score>\d+) (?<ping>\d+) "(?<name>.+)"$/`). -/
structure Client where
  score : String
  ping : String
  name : String
deriving DecidableEq, Repr

/-- A character the regex metacharacter `.` refuses to match: JavaScript
line terminators. -/
def isLineTerminator (c : Char) : Bool :=
  c = '\n' ∨ c = '\r' ∨ c.toNat = 8232 ∨ c.toNat = 8233

/-- The anchored regex `/^(?<score>\d+) (?<ping>\d+) "(?<name>.+)"$/`
as a deterministic matcher: a maximal nonempty digit run, a space, a
maximal nonempty digit run, a space, an opening quote, then at least one
non-line-terminator character up to a closing quote that must be the last
character of the line. -/
def matchClientLine (line : String) : Option Client :=
  let cs := line.data
  let score := cs.takeWhile Char.isDigit
  match score, cs.dropWhile Char.isDigit with
  | _ :: _, ' ' :: r2 =>
    let ping := r2.takeWhile Char.isDigit
    match ping, r2.dropWhile Char.isDigit with
    | _ :: _, ' ' :: '"' :: r4 =>
      if r4.length ≥ 2 ∧ r4.getLast? = some '"' ∧
          r4.dropLast.all (fun c => ¬ isLineTerminator c) then
        some ⟨⟨score⟩, ⟨ping⟩, ⟨r4.dropLast⟩⟩
      else
        none
    | _, _ => none
  | _, _ => none

/-- The client-score loop of `cts_getstatus`:
`while ((line = parser.readLine())) { if regex matches push matches.groups }`.
The loop exits as soon as `readLine` returns an empty (falsy) string.
Fuelled; every nonempty line advances the offset by at least one byte, so
`msg.length + 1` units of fuel cover every run. -/
def clientsLoopF : Nat → Q3MessageParser → List Client × Q3MessageParser
  | 0, p => ([], p)
  | fuel + 1, p =>
    let (line, p1) := readLine p
    if line = "" then ([], p1)
    else
      match matchClientLine line with
      | some cl =>
        let (rest, p2) := clientsLoopF fuel p1
        (cl :: rest, p2)
      | none => clientsLoopF fuel p1

/-- Entry point of the client-score loop. -/
def clientsLoop (p : Q3MessageParser) : List Client × Q3MessageParser :=
  clientsLoopF (p.msg.length + 1) p

/-- The lines `readLine` delivers to the client-score loop, in order, up to
(and not including) the first empty line; fuelled like the loop itself. -/
def linesF : Nat → Q3MessageParser → List String
  | 0, _ => []
  | fuel + 1, p =>
    let (line, p1) := readLine p
    if line = "" then [] else line :: linesF fuel p1

/-- Entry point of `linesF`. -/
def linesUntilEmpty (p : Q3MessageParser) : List String :=
  linesF (p.msg.length + 1) p

/-- The reply-processing body of `cts_getstatus`: like `cts_getinfo` with
command token `statusResponse`, then the client-score loop, resolving with
(source address, status infostring, client records). -/
def cts_getstatus_process (strict : Bool) (challenge : String)
    (destIp : String) (destPort : Nat) (source : Address)
    (response : List Nat) :
    Except String (Address × List (String × String) × List Client) :=
  if (source.ip ≠ destIp ∨ source.port ≠ destPort) ∧ strict = true then
    .error "JKComms: response came from unexpected source address"
  else do
    let p0 ← mkParser response true
    let (command, p1) := readLine p0
    if command ≠ "statusResponse" ∧ strict = true then
      .error "JKComms: expected statusResponse"
    else
      let (infoString, p2) := readLine p1
      if objGet (parseInfostring infoString) "challenge" ≠ some challenge ∧
          strict = true then
        .error "JKComms: challenge mismatch"
      else
        pure (source, parseInfostring infoString, (clientsLoop p2).1)

/-- The synthetic `getserversResponse` reply of the specification: marker,
command, two NUL bytes, two 6-byte server records separated by a
backslash, and the terminal `EOT` sentinel. -/
def getserversPayload : List Nat :=
  [255, 255, 255, 255] ++ asciiBytes "getserversResponse" ++ [0, 0] ++
    [1, 2, 3, 4, 31, 144] ++ [92] ++ [5, 6, 7, 8, 78, 32] ++ [92] ++
    asciiBytes "EOT"

/-!
## Specification-side definitions

Used to state refinement claims; each follows the specification's words
and is compared against the corresponding source-derived definition.
-/

/-- Specification reading of the infostring pairing: consume consecutive
tokens two at a time as key/value, lower-casing keys; a trailing unmatched
token is dropped. -/
def pairConsecutiveSpec : List String → List (String × String) →
    List (String × String)
  | k :: v :: rest, acc => pairConsecutiveSpec rest (objSet acc (jsToLower k) v)
  | _, acc => acc

/-- `decodeInfostring` as the specification words it: strip one optional
leading separator, split on the separator, pair consecutive tokens. -/
def decodeInfostringSpec (text : String) : List (String × String) :=
  let body : List Char :=
    match text.data with
    | '\x5c' :: rest => rest
    | cs => cs
  pairConsecutiveSpec ((splitOnChar '\x5c' body).map (fun cs => (⟨cs⟩ : String))) []

/-- The infostring line of a `getinfo`/`getstatus` reply: the second line
the parser reads after header validation (`none` when construction
fails). -/
def infoLine (response : List Nat) : Option String :=
  (Q3MessageParser.mkParser response true).toOption.map
    (fun p0 => (Q3MessageParser.readLine (Q3MessageParser.readLine p0).2).1)

/-- Chunking as the amended `splitFixedStride` specification describes it:
emit `msg.slice(offset, offset + chunkSize)` and advance by
`chunkSize + stride` while strictly more than `chunkSize` bytes remain
beyond the offset and the chunk budget (`none` = unbounded) is not
exhausted.  Fuelled in step with `splitWithStrideAux`. -/
def stridedChunksF : Nat → List Nat → Nat → Nat → Nat → Option Nat →
    List (List Nat)
  | 0, _, _, _, _, _ => []
  | fuel + 1, msg, off, c, s, budget =>
    if off + c < msg.length ∧ budget ≠ some 0 then
      (msg.drop off).take c ::
        stridedChunksF fuel msg (off + c + s) c s (budget.map (· - 1))
    else []

/-- Termination of the `splitWithStride` while loop, as a relation on the
loop state (current offset, number of chunks collected so far): the loop
terminates from a state iff the guard fails there or it terminates from
the successor state.  This is the control skeleton of the JavaScript
`while` independent of any fuel bound. -/
inductive SplitLoopTerminates (msg : List Nat) (c s n : Nat) :
    Nat → Nat → Prop
  | exit (off k : Nat) :
      ¬(off + c < msg.length ∧ (n = 0 ∨ k < n)) →
      SplitLoopTerminates msg c s n off k
  | step (off k : Nat) :
      (off + c < msg.length ∧ (n = 0 ∨ k < n)) →
      SplitLoopTerminates msg c s n (off + c + s) (k + 1) →
      SplitLoopTerminates msg c s n off k

/-- Synthetic `infoResponse` reply used as a concrete input: the reply's
infostring carries a `challenge` field. -/
def getinfoPayload : List Nat :=
  [255, 255, 255, 255] ++
    asciiBytes "infoResponse\n\x5cchallenge\x5cjkutils-query\x5cmapname\x5cmp/ffa3"

/-- Synthetic `statusResponse` reply used as a concrete input: after the
infostring line there is an empty line followed by a well-formed client
score line. -/
def getstatusPayload : List Nat :=
  [255, 255, 255, 255] ++
    asciiBytes "statusResponse\n\x5cchallenge\x5cjkutils-query\n\n12 55 \"A\""

/-!
## Claims
-/

/-- C1: the claim that `decodeServer (encodeServer ip port) = (ip, port)`
with the port written big-endian fails on the code: `encodeServer` writes
`(port >> 8) | (port & 0xFF)` — which collapses both port bytes into one —
into a 16-bit big-endian field, so `"1.2.3.4"`/`8080` encodes to bytes
`01 02 03 04 00 9F` (not `... 1F 90`) and decodes back to port 159. -/
theorem C1_port_encoding_bug :
    encodeServer "1.2.3.4" 8080 = .ok [1, 2, 3, 4, 0, 159] ∧
    decodeServer [1, 2, 3, 4, 0, 159] = .ok ⟨"1.2.3.4", 159⟩ ∧
    (159 : Nat) ≠ 8080 := by decide

/-- C2: on the specification's synthetic `getserversResponse` reply the
code does not produce `[(1.2.3.4, 8080), (5.6.7.8, 20000)]`: the padding
loop compares the Number from `readUInt8` against the strings
`'\0'`/`'\n'` with strict equality, so it always skips exactly one byte;
parsing starts one byte early and every record is mis-aligned. -/
theorem C2_getservers_misparse :
    ctm_getservers_process true "10.0.0.1" 29060 ⟨"10.0.0.1", 29060⟩
        getserversPayload =
      .ok [⟨"0.1.2.3", 1055⟩, ⟨"92.5.6.7", 2126⟩] ∧
    ctm_getservers_process true "10.0.0.1" 29060 ⟨"10.0.0.1", 29060⟩
        getserversPayload ≠
      .ok [⟨"1.2.3.4", 8080⟩, ⟨"5.6.7.8", 20000⟩] := by decide

/-- C3 counterexample: an accepted strict-mode `getinfo` reply whose
infostring carries a `challenge` field resolves with a mapping that still
contains the `challenge` key — the code validates the field but never
removes it, contradicting the claim that the returned mapping never
contains a `challenge` key. -/
theorem C3_counterexample :
    cts_getinfo_process true "jkutils-query" "1.2.3.4" 29070
        ⟨"1.2.3.4", 29070⟩ getinfoPayload =
      .ok (⟨"1.2.3.4", 29070⟩,
        [("challenge", "jkutils-query"), ("mapname", "mp/ffa3")]) ∧
    objGet [("challenge", "jkutils-query"), ("mapname", "mp/ffa3")]
        "challenge" = some "jkutils-query" := by decide

/-- C4 counterexample: with only two bytes left past the offset,
`readChars 5` does not fail with a framing error — it returns the
truncated two-character string and advances the offset by 5 (past the end
of the buffer). -/
theorem C4_counterexample :
    Q3MessageParser.readChars ⟨[255, 255, 255, 255, 66, 67], 4⟩ 5 =
      ("BC", ⟨[255, 255, 255, 255, 66, 67], 9⟩) := by decide

/-- C5 counterexample: a `statusResponse` whose client section starts with
an empty line yields no client records at all, even though the matching
line `12 55 "A"` follows the empty line before the end of the message —
the loop exits at the first empty (falsy) line instead of examining every
line up to the end of the message. -/
theorem C5_counterexample :
    cts_getstatus_process true "jkutils-query" "1.2.3.4" 29070
        ⟨"1.2.3.4", 29070⟩ getstatusPayload =
      .ok (⟨"1.2.3.4", 29070⟩, [("challenge", "jkutils-query")], []) ∧
    matchClientLine "12 55 \"A\"" = some ⟨"12", "55", "A"⟩ := by decide

/-- C8 counterexample: when `offset + n` equals the buffer length exactly,
`skip` returns `false` (clamping to the end), not `true` as the claim
states. -/
theorem C8_counterexample :
    (Q3MessageParser.skip ⟨[255, 255, 255, 255, 68, 69], 4⟩ 2).1 = false ∧
    (4 : Nat) + 2 = ([255, 255, 255, 255, 68, 69] : List Nat).length := by
  decide

/-- C9 counterexample: with exactly `chunkSize` (= 6) bytes remaining
unread, `splitWithStride 6 1` produces no final chunk — the guard demands
strictly more than `chunkSize` bytes — contradicting the claim that a
final chunk is still produced in that case. -/
theorem C9_counterexample :
    (Q3MessageParser.splitWithStride
        ⟨[255, 255, 255, 255, 1, 2, 3, 4, 31, 144], 4⟩ 6 1 0).1 = [] ∧
    Q3MessageParser.remainingBytes
        ⟨[255, 255, 255, 255, 1, 2, 3, 4, 31, 144], 4⟩ = 6 := by decide

/-- The length of an ASCII-decoded byte list equals the byte count. -/
theorem asciiDecode_length (bs : List Nat) :
    (asciiDecode bs).length = bs.length := by
  simp [asciiDecode, String.length]

/-- C4 amended: `readChars n` never fails: it returns the
`min n remaining` bytes at the offset decoded as ASCII (exactly `n` when
in bounds, fewer — possibly zero — otherwise) and advances the offset by
`n` unconditionally. -/
theorem C4_amended (p : Q3MessageParser) (n : Nat) :
    ((Q3MessageParser.readChars p n).1).length =
      min n (p.msg.length - p.offset) ∧
    (Q3MessageParser.readChars p n).2 = ⟨p.msg, p.offset + n⟩ ∧
    (Q3MessageParser.readChars p n).1 =
      asciiDecode ((p.msg.drop p.offset).take n) := by
  refine ⟨?_, rfl, rfl⟩
  show (asciiDecode ((p.msg.drop p.offset).take n)).length = _
  rw [asciiDecode_length, List.length_take, List.length_drop]

/-- C8 amended: `skip n` advances and returns `true` iff `offset + n` is
strictly below the buffer length; otherwise — including when
`offset + n` equals the length exactly — it clamps the offset to the end
and returns `false`. -/
theorem C8_amended (p : Q3MessageParser) (n : Nat) :
    (Q3MessageParser.skip p n).1 = decide (p.offset + n < p.msg.length) ∧
    (Q3MessageParser.skip p n).2.msg = p.msg ∧
    (Q3MessageParser.skip p n).2.offset =
      min (p.offset + n) p.msg.length := by
  unfold Q3MessageParser.skip
  by_cases h : p.offset + n ≥ p.msg.length
  · rw [if_pos h]
    refine ⟨by simp; omega, rfl, by simp; omega⟩
  · rw [if_neg h]
    refine ⟨by simp; omega, rfl, by simp; omega⟩

/-- Pairing stops as soon as fewer than two tokens remain. -/
theorem pairConsecutiveSpec_short (l : List String)
    (acc : List (String × String)) (h : l.length ≤ 1) :
    pairConsecutiveSpec l acc = acc := by
  cases l with
  | nil => rfl
  | cons x t =>
    cases t with
    | nil => rfl
    | cons y r => simp at h

/-- The indexed loop of `parseInfostring` agrees with consecutive-token
pairing from any index, given enough fuel. -/
theorem pairsLoop_eq_spec (fuel : Nat) :
    ∀ (toks : List String) (i : Nat) (acc : List (String × String)),
      toks.length - i ≤ 2 * fuel →
      pairsLoop fuel toks i acc = pairConsecutiveSpec (toks.drop i) acc := by
  induction fuel with
  | zero =>
    intro toks i acc h
    rw [List.drop_eq_nil_of_le (by omega)]
    rfl
  | succ fuel ih =>
    intro toks i acc h
    rw [pairsLoop]
    split
    · next hlt =>
      have hi : i < toks.length := by omega
      rw [List.drop_eq_getElem_cons hi, List.drop_eq_getElem_cons hlt,
        pairConsecutiveSpec, ih toks (i + 2) _ (by omega)]
      rfl
    · next hge =>
      rw [pairConsecutiveSpec_short _ _ (by rw [List.length_drop]; omega)]

/-- C6: `parseInfostring` is total and implements exactly the specified
decoding: strip one optional leading backslash, split on backslash, pair
consecutive tokens as key/value with lower-cased keys, and drop a
trailing unmatched token. -/
theorem C6_infostring (info : String) :
    parseInfostring info = decodeInfostringSpec info := by
  unfold parseInfostring decodeInfostringSpec
  rw [pairsLoop_eq_spec _ _ 0 _ (by omega), List.drop_zero]

/-- The client-score loop collects exactly the regex matches of the lines
read before the first empty line, fuel-for-fuel. -/
theorem clientsLoopF_eq_filterMap (fuel : Nat) :
    ∀ p : Q3MessageParser,
      (clientsLoopF fuel p).1 = (linesF fuel p).filterMap matchClientLine := by
  induction fuel with
  | zero => intro p; rfl
  | succ fuel ih =>
    intro p
    rw [clientsLoopF, linesF]
    cases hrl : Q3MessageParser.readLine p with
    | mk line p1 =>
      by_cases hl : line = ""
      · simp [hl]
      · simp only [hl, if_neg hl, List.filterMap_cons]
        cases hm : matchClientLine line with
        | some cl => simp [hm, ih]
        | none => simp [hm, ih]

/-- C5 amended: the client-record section of a `statusResponse` is
processed line by line only up to the first empty line (or end of
message): the collected records are exactly the client-pattern matches of
those lines, in order; a non-matching non-empty line is silently skipped,
and lines beyond an empty line are never examined.  The line
`12 55 "Player One"` decodes to the record `(12, 55, Player One)` and the
malformed line `notanumber 55 "X"` contributes nothing. -/
theorem C5_amended :
    (∀ p : Q3MessageParser,
      (clientsLoop p).1 = (linesUntilEmpty p).filterMap matchClientLine) ∧
    matchClientLine "12 55 \"Player One\"" =
      some ⟨"12", "55", "Player One"⟩ ∧
    matchClientLine "notanumber 55 \"X\"" = none := by
  refine ⟨fun p => ?_, by decide, by decide⟩
  unfold clientsLoop linesUntilEmpty
  exact clientsLoopF_eq_filterMap _ p

/-- C7: for every payload at least 4 bytes long whose leading 32-bit
little-endian marker is not `0xFFFFFFFF`, constructing the parser with
header validation fails with the marker error, and the outcome depends
only on the first 4 bytes — any payload sharing them fails identically,
so nothing beyond the marker is consumed or parsed. -/
theorem C7_marker_validation (msg : List Nat) (m : Nat)
    (hm : readUInt32LE msg 0 = .ok m) (hne : m ≠ 4294967295) :
    Q3MessageParser.mkParser msg true =
      .error ("Q3MessageParser: missing start marker, received " ++
        natToDecimal m) ∧
    ∀ tail, Q3MessageParser.mkParser (msg.take 4 ++ tail) true =
      .error ("Q3MessageParser: missing start marker, received " ++
        natToDecimal m) := by
  have h4 : 0 + 4 ≤ msg.length := by
    by_contra hc
    rw [readUInt32LE, if_neg hc] at hm
    exact Except.noConfusion hm
  constructor
  · rw [Q3MessageParser.mkParser, if_pos rfl, hm]
    exact if_pos hne
  · intro tail
    have hget : ∀ i, i < 4 → (msg.take 4 ++ tail).getD i 0 = msg.getD i 0 := by
      intro i hi
      have h1 : i < (msg.take 4).length := by
        rw [List.length_take]; omega
      rw [List.getD_eq_getElem?_getD, List.getD_eq_getElem?_getD,
        List.getElem?_append, if_pos h1, List.getElem?_take, if_pos hi]
    have hlen : 0 + 4 ≤ (msg.take 4 ++ tail).length := by
      rw [List.length_append, List.length_take]; omega
    have hm' : readUInt32LE (msg.take 4 ++ tail) 0 = .ok m := by
      rw [readUInt32LE, if_pos hlen, hget 0 (by omega),
        hget (0 + 1) (by omega), hget (0 + 2) (by omega),
        hget (0 + 3) (by omega)]
      rw [readUInt32LE, if_pos h4] at hm
      exact hm
    rw [Q3MessageParser.mkParser, if_pos rfl, hm']
    exact if_pos hne

/-- C7 witness: a concrete 5-byte payload with marker 7 fails construction
with the marker error. -/
theorem C7_witness :
    Q3MessageParser.mkParser [7, 0, 0, 0, 42] true =
      .error ("Q3MessageParser: missing start marker, received " ++
        natToDecimal 7) :=
  (C7_marker_validation [7, 0, 0, 0, 42] 7 (by decide) (by decide)).1

/-- Accumulator elimination for the `splitWithStride` loop: from any state
it appends exactly the chunks `stridedChunksF` describes, with the chunk
budget derived from the bound and the chunks already collected. -/
theorem splitWithStrideAux_eq (fuel : Nat) :
    ∀ (msg : List Nat) (off c s n : Nat) (acc : List (List Nat)),
      (Q3MessageParser.splitWithStrideAux fuel ⟨msg, off⟩ c s n acc).1 =
        acc ++ stridedChunksF fuel msg off c s
          (if n = 0 then none else some (n - acc.length)) := by
  induction fuel with
  | zero =>
    intro msg off c s n acc
    simp [Q3MessageParser.splitWithStrideAux, stridedChunksF]
  | succ fuel ih =>
    intro msg off c s n acc
    rw [Q3MessageParser.splitWithStrideAux, stridedChunksF]
    by_cases h1 : off + c < msg.length
    · by_cases h2 : n = 0 ∨ acc.length < n
      · have hg1 : off + c < msg.length ∧ (n = 0 ∨ acc.length < n) := ⟨h1, h2⟩
        have hb : (if n = 0 then none else some (n - acc.length)) ≠ some 0 := by
          rcases h2 with h2 | h2 <;> simp [h2]; omega
        have hg2 : off + c < msg.length ∧
            (if n = 0 then none else some (n - acc.length)) ≠ some 0 := ⟨h1, hb⟩
        rw [if_pos hg1, if_pos hg2, ih]
        have hb2 : (if n = 0 then none else
            some (n - (acc ++ [(msg.drop off).take c]).length)) =
            (if n = 0 then none else some (n - acc.length)).map (· - 1) := by
          by_cases h3 : n = 0 <;> simp [h3]; omega
        rw [hb2, List.append_assoc]
        rfl
      · have hg1 : ¬ (off + c < msg.length ∧ (n = 0 ∨ acc.length < n)) := by
          tauto
        have hb : ((if n = 0 then none else some (n - acc.length)) : Option Nat) =
            some 0 := by
          push_neg at h2
          simp [h2.1]
          omega
        have hg2 : ¬ (off + c < msg.length ∧
            (if n = 0 then none else some (n - acc.length)) ≠ some 0) := by
          intro hcontra
          exact hcontra.2 hb
        rw [if_neg hg1, if_neg hg2, List.append_nil]
    · have hg1 : ¬ (off + c < msg.length ∧ (n = 0 ∨ acc.length < n)) := by
        tauto
      have hg2 : ¬ (off + c < msg.length ∧
          (if n = 0 then none else some (n - acc.length)) ≠ some 0) := by
        tauto
      rw [if_neg hg1, if_neg hg2, List.append_nil]

/-- C9 amended: `splitWithStride` takes a `chunkSize`-byte chunk and then
advances `stride` further, while strictly more than `chunkSize` bytes
remain beyond the offset and the chunk bound is not reached; in
particular no final chunk is produced when exactly `chunkSize` bytes
remain unread. -/
theorem C9_amended (p : Q3MessageParser) (c s n : Nat) :
    (Q3MessageParser.splitWithStride p c s n).1 =
      stridedChunksF (p.msg.length + 1) p.msg p.offset c s
        (if n = 0 then none else some n) ∧
    (p.offset + c = p.msg.length →
      (Q3MessageParser.splitWithStride p c s n).1 = []) := by
  have key : (Q3MessageParser.splitWithStride p c s n).1 =
      stridedChunksF (p.msg.length + 1) p.msg p.offset c s
        (if n = 0 then none else some n) := by
    rw [Q3MessageParser.splitWithStride]
    have := splitWithStrideAux_eq (p.msg.length + 1) p.msg p.offset c s n []
    simpa using this
  refine ⟨key, fun hend => ?_⟩
  rw [key, stridedChunksF, if_neg (by omega)]

/-- C9 witness: with exactly 6 bytes remaining, `splitWithStride 6`
produces no chunk. -/
theorem C9_witness :
    (4 : Nat) + 6 = ([255, 255, 255, 255, 9, 9, 9, 9, 9, 9] : List Nat).length ∧
    (Q3MessageParser.splitWithStride
      ⟨[255, 255, 255, 255, 9, 9, 9, 9, 9, 9], 4⟩ 6 1 0).1 = [] :=
  ⟨by decide,
    (C9_amended ⟨[255, 255, 255, 255, 9, 9, 9, 9, 9, 9], 4⟩ 6 1 0).2 (by decide)⟩

/-- `Except` bind on a success reduces to the continuation. -/
theorem ok_bind {ε α β : Type} (a : α) (f : α → Except ε β) :
    (Except.ok a >>= f) = f a := rfl

/-- C3 amended: whenever `getinfo` resolves successfully, the result is
the pair of the reply's source address and the full decoded infostring of
the reply's second line — the `challenge` field is validated but not
removed from the returned mapping. -/
theorem C3_amended (strict : Bool) (challenge destIp : String)
    (destPort : Nat) (source : Address) (response : List Nat)
    (addr : Address) (info : List (String × String))
    (h : cts_getinfo_process strict challenge destIp destPort source
      response = .ok (addr, info)) :
    addr = source ∧ (infoLine response).map parseInfostring = some info := by
  rw [cts_getinfo_process] at h
  split at h
  · exact Except.noConfusion h
  · cases hp : Q3MessageParser.mkParser response true with
    | error e =>
      rw [hp] at h
      exact Except.noConfusion h
    | ok p0 =>
      rw [hp, ok_bind] at h
      split at h
      next command p1 heq =>
        split at h
        · exact Except.noConfusion h
        · split at h
          next line p2 heq2 =>
            split at h
            · exact Except.noConfusion h
            · have h' : Except.ok (source, parseInfostring line) =
                  Except.ok (addr, info) := h
              have hpair := Except.ok.inj h'
              refine ⟨(congrArg Prod.fst hpair).symm, ?_⟩
              rw [infoLine, hp]
              simp only [Except.toOption, Option.map, heq, heq2]
              exact congrArg some (congrArg Prod.snd hpair)

/-- C3 witness: concrete accepted strict-mode reply whose infostring is
returned in full. -/
theorem C3_witness :
    (⟨"7.7.7.7", 29071⟩ : Address) = ⟨"7.7.7.7", 29071⟩ ∧
    (infoLine getinfoPayload).map parseInfostring =
      some [("challenge", "jkutils-query"), ("mapname", "mp/ffa3")] :=
  C3_amended true "jkutils-query" "7.7.7.7" 29071 ⟨"7.7.7.7", 29071⟩
    getinfoPayload ⟨"7.7.7.7", 29071⟩
    [("challenge", "jkutils-query"), ("mapname", "mp/ffa3")] (by decide)

/-- With `chunkSize = stride = 0` and no chunk bound, the `splitWithStride`
loop can only terminate from states already at or past the end of the
buffer: the guard stays true and the state never changes. -/
theorem splitLoopStuck_zero (msg : List Nat) :
    ∀ off k, SplitLoopTerminates msg 0 0 0 off k → msg.length ≤ off := by
  intro off k h
  induction h with
  | exit off k hg =>
    by_contra hc
    exact hg ⟨by omega, Or.inl rfl⟩
  | step off k hg hrec ih => omega

/-- C10 counterexample: from a freshly constructed parser over a 5-byte
message (offset 4, one byte remaining), `splitWithStride(0, 0)` with no
chunk bound never terminates: the loop guard `offset + 0 < length` stays
true and the offset never advances, so the call does not return a value. -/
theorem C10_counterexample :
    ¬ SplitLoopTerminates [255, 255, 255, 255, 70] 0 0 0 4 0 := by
  intro h
  have := splitLoopStuck_zero [255, 255, 255, 255, 70] 4 0 h
  simp at this

/-- The `splitWithStride` loop terminates from every state whenever each
iteration advances the offset (`1 ≤ chunkSize + stride`). -/
theorem splitLoopTerm_of_advance (msg : List Nat) (c s n : Nat)
    (hcs : 1 ≤ c + s) : ∀ off k, SplitLoopTerminates msg c s n off k := by
  have H : ∀ d off k, msg.length - off ≤ d →
      SplitLoopTerminates msg c s n off k := by
    intro d
    induction d with
    | zero =>
      intro off k hle
      exact .exit off k (by rintro ⟨h1, -⟩; omega)
    | succ d ih =>
      intro off k hle
      by_cases hg : off + c < msg.length ∧ (n = 0 ∨ k < n)
      · exact .step off k hg (ih (off + c + s) (k + 1) (by omega))
      · exact .exit off k hg
  intro off k
  exact H msg.length off k (by omega)

/-- The `splitWithStride` loop terminates from every state whenever a
positive chunk bound is given: each iteration increases the collected
count toward the bound. -/
theorem splitLoopTerm_of_bound (msg : List Nat) (c s n : Nat)
    (hn : 0 < n) : ∀ off k, SplitLoopTerminates msg c s n off k := by
  have H : ∀ d off k, n - k ≤ d → SplitLoopTerminates msg c s n off k := by
    intro d
    induction d with
    | zero =>
      intro off k hle
      exact .exit off k (by rintro ⟨-, h2 | h2⟩ <;> omega)
    | succ d ih =>
      intro off k hle
      by_cases hg : off + c < msg.length ∧ (n = 0 ∨ k < n)
      · refine .step off k hg (ih (off + c + s) (k + 1) ?_)
        rcases hg.2 with h2 | h2 <;> omega
      · exact .exit off k hg
  intro off k
  exact H n off k (by omega)

/-- C10 amended: after successful construction the read primitives are
total — `readChars`, `readLine` and `skip` always return, yielding a
truncated (possibly empty) string past the end of the buffer — and the
`splitWithStride` loop terminates from every state whenever
`chunkSize + stride ≥ 1` or a positive chunk bound is given; the sole
exception is `chunkSize = stride = 0` with an unbounded chunk count and
data remaining, where the loop never terminates. -/
theorem C10_amended :
    (∀ (msg : List Nat) (c s n off k : Nat), 1 ≤ c + s →
      SplitLoopTerminates msg c s n off k) ∧
    (∀ (msg : List Nat) (c s n off k : Nat), 0 < n →
      SplitLoopTerminates msg c s n off k) ∧
    (∀ (p : Q3MessageParser) (n : Nat), p.msg.length ≤ p.offset →
      (Q3MessageParser.readChars p n).1 = "" ∧
      (Q3MessageParser.readLine p).1 = "" ∧
      (Q3MessageParser.skip p n).1 = false) := by
  refine ⟨fun msg c s n off k h => splitLoopTerm_of_advance msg c s n h off k,
    fun msg c s n off k h => splitLoopTerm_of_bound msg c s n h off k,
    fun p n h => ?_⟩
  have hdrop : p.msg.drop p.offset = [] := List.drop_eq_nil_of_le h
  refine ⟨?_, ?_, ?_⟩
  · rw [Q3MessageParser.readChars]
    simp [hdrop, asciiDecode]
  · rw [Q3MessageParser.readLine]
    simp [hdrop, asciiDecode]
  · rw [Q3MessageParser.skip, if_pos (by omega)]

/-- C10 witness: concrete instances of the three totality facts. -/
theorem C10_witness :
    SplitLoopTerminates [1, 2, 3] 2 0 0 0 0 ∧
    SplitLoopTerminates [1, 2, 3] 0 0 5 0 0 ∧
    ((Q3MessageParser.readChars ⟨[1, 2], 2⟩ 3).1 = "" ∧
      (Q3MessageParser.readLine ⟨[1, 2], 2⟩).1 = "" ∧
      (Q3MessageParser.skip ⟨[1, 2], 2⟩ 3).1 = false) :=
  ⟨C10_amended.1 [1, 2, 3] 2 0 0 0 0 (by decide),
    C10_amended.2.1 [1, 2, 3] 0 0 5 0 0 (by decide),
    C10_amended.2.2 ⟨[1, 2], 2⟩ 3 (by decide)⟩

/-!
## Sanity checks on concrete inputs
-/

example :
    Q3MessageParser.mkParser [255, 255, 255, 255, 65] true =
      .ok ⟨[255, 255, 255, 255, 65], 4⟩ := by decide

example :
    Q3MessageParser.mkParser [1, 0, 0, 0, 65] true =
      .error "Q3MessageParser: missing start marker, received 1" := by decide

example :
    Q3MessageParser.readLine ⟨asciiBytes "ab\ncd", 0⟩ =
      ("ab", ⟨asciiBytes "ab\ncd", 3⟩) := by decide

example :
    Q3MessageParser.readChars ⟨asciiBytes "abcd", 1⟩ 2 =
      ("bc", ⟨asciiBytes "abcd", 3⟩) := by decide

example : parseInfostring "\x5ck1\x5cv1\x5cK2\x5cv2" =
    [("k1", "v1"), ("k2", "v2")] := by decide

example : parseInfostring "k1\x5cv1\x5codd" = [("k1", "v1")] := by decide

example : parseInfostring "" = [] := by decide

example : encodeServer "1.2.3.4" 8080 = .ok [1, 2, 3, 4, 0, 159] := by decide

example : decodeServer [1, 2, 3, 4, 31, 144] = .ok ⟨"1.2.3.4", 8080⟩ := by decide

example :
    ctm_getservers_process true "10.0.0.1" 29060 ⟨"10.0.0.1", 29060⟩
      getserversPayload =
    .ok [⟨"0.1.2.3", 1055⟩, ⟨"92.5.6.7", 2126⟩] := by decide

example : matchClientLine "12 55 \"Player One\"" =
    some ⟨"12", "55", "Player One"⟩ := by decide

example : matchClientLine "notanumber 55 \"X\"" = none := by decide
